import Mathlib

/-!
Verification of the `prep` terminal UI controller.

This file gives a shallow embedding of the controller state machine and its
pure helper functions (handlers.go and companions), and proves properties of
the embedded definitions.

Modelling conventions:
* The Go `model` struct becomes the `Prep.Model` structure.  UI widget fields
  (tables, lists, viewports) are represented by the data the handlers write
  into them (row lists, content lines); purely cosmetic fields (styles,
  loggers, key maps, spinners, help bubbles) and process handles (runner,
  sender, watcher) carry no data relevant to the verified handlers and are
  omitted.
* Go `error` values become `Option String` (`none` = nil error).
* Filesystem paths are represented as lists of path components of an
  absolute path (the component list of `/a/b/c` is `["a","b","c"]`).
  `filepath.Rel(base, target)` not starting with ".." corresponds to `base`
  being a component-wise list prefix of `target`, and `strings.HasPrefix`
  on absolute path strings corresponds to a component-wise list prefix
  (exact whenever the shorter path ends at a component boundary, which is
  the intended reading of the Go checks).
* Timestamps are naturals (milliseconds); `time.Since` is modelled as the
  integer difference of the current time and the stored time, compared
  against the debounce interval (500 ms).
* External collaborators are parameters: the fuzzy matcher of
  `filterTasks` is a parameter returning ranked match indices, the word
  wrapper of `wrapOutputLines` is a parameter `String → Nat → String`, and
  the process executor behind `execRunner.Run` is a parameter returning the
  captured output or an error.
* Go machine integers stay well inside 64 bits here (window heights, row
  counts, list lengths, priorities), and every quantity flowing into the
  arithmetic of the embedded functions is non-negative (lengths, terminal
  sizes), so `Nat` arithmetic is used; in `calculateTableHeights` the only
  possibly-negative Go intermediate (`availableHeight`) is immediately
  guarded by a `< numTables*minTableHeight` comparison, which truncating
  `Nat` subtraction decides identically.
-/

namespace Prep

/-- A mise task record (loader.Task): name, description, aliases,
source path, hidden flag, run commands. -/
structure Task where
  name : String
  description : String
  aliases : List String
  source : String
  hide : Bool
  run : List String
deriving DecidableEq, Repr, Inhabited

/-- A mise tool record (loader.Tool). -/
structure Tool where
  name : String
  version : String
  requestedVersion : String
  sourcePath : String
deriving DecidableEq, Repr, Inhabited

/-- An environment variable record (loader.EnvVar): name, value and the
view-state masked flag. -/
structure EnvVar where
  name : String
  value : String
  masked : Bool
deriving DecidableEq, Repr, Inhabited

/-- A registry entry shown in the tool picker (toolItem / loader.RegistryTool). -/
structure ToolItem where
  name : String
  backend : String
deriving DecidableEq, Repr, Inhabited

/-- The state of the tool installation picker (Go `pickerState`). -/
inductive PickerState where
  | pickerClosed
  | pickerSelectTool
  | pickerLoadingVersions
  | pickerSelectVersion
  | pickerSelectConfig
  | pickerInstalling
deriving DecidableEq, Repr, Inhabited

/-- The asynchronous commands the embedded handlers can issue
(`tea.Cmd` values returned by the handlers we model; `none` is Go `nil`). -/
inductive UICmd where
  | noCmd
  | reloadMiseData
  | loadMiseTools
deriving DecidableEq, Repr, Inhabited

/-- The controller state (Go `model`).  Widget fields hold the data the
handlers write into them; see the module docstring for omitted fields. -/
structure Model where
  tasksTableRows : List (List String)
  toolsTableRows : List (List String)
  envVarsTableRows : List (List String)
  tasks : List Task
  tools : List Tool
  envVars : List EnvVar
  focus : Nat
  tasksLoading : Bool
  toolsLoading : Bool
  envVarsLoading : Bool
  err : Option String
  miseVersion : String
  showOutput : Bool
  runningTask : String
  taskRunning : Bool
  taskErr : Option String
  output : List String
  totalOutputLines : Nat
  viewportLines : List String
  viewportWidth : Nat
  wrapOutput : Bool
  cancelFunc : Option Unit
  windowWidth : Nat
  windowHeight : Nat
  argInputActive : Bool
  argInputInteractive : Bool
  argInputTask : String
  argInputValue : String
  configPaths : List String
  lastReload : Nat
  pickerState : PickerState
  toolListItems : List ToolItem
  versionListItems : List String
  configListItems : List String
  selectedTool : String
  selectedVersion : String
  versionsLoading : Bool
  cwd : List String
  homeDir : List String
  filterActive : Bool
  filterValue : String
  filteredTasks : List Task
deriving Repr

/-- A concrete controller state used to instantiate theorems on concrete
inputs (fields as set up by `run` at startup, before any message). -/
def sampleModel : Model where
  tasksTableRows := []
  toolsTableRows := []
  envVarsTableRows := []
  tasks := []
  tools := []
  envVars := []
  focus := 0
  tasksLoading := true
  toolsLoading := true
  envVarsLoading := true
  err := none
  miseVersion := ""
  showOutput := false
  runningTask := ""
  taskRunning := false
  taskErr := none
  output := []
  totalOutputLines := 0
  viewportLines := []
  viewportWidth := 0
  wrapOutput := false
  cancelFunc := none
  windowWidth := 0
  windowHeight := 0
  argInputActive := false
  argInputInteractive := false
  argInputTask := ""
  argInputValue := ""
  configPaths := []
  lastReload := 0
  pickerState := PickerState.pickerClosed
  toolListItems := []
  versionListItems := []
  configListItems := []
  selectedTool := ""
  selectedVersion := ""
  versionsLoading := false
  cwd := []
  homeDir := []
  filterActive := false
  filterValue := ""
  filteredTasks := []

/-! ## Environment variable masking -/

/-- `maskValue` returns a masked representation of a value: the empty string
for an empty value, otherwise a fixed eight-character mask. -/
def maskValue (value : String) : String :=
  if value.length = 0 then ""
  else "●●●●●●●●"

/-- One display row of the env-vars table, as built by
`refreshEnvVarsTable` and `handleEnvVarsLoaded`: the name and either the
masked or the plain value. -/
def envVarDisplayRow (ev : EnvVar) : List String :=
  let displayValue := maskValue ev.value
  let displayValue := if !ev.masked then ev.value else displayValue
  [ev.name, displayValue]

/-- `refreshEnvVarsTable` rebuilds the env vars table rows from the current
mask state. -/
def refreshEnvVarsTable (m : Model) : Model :=
  { m with envVarsTableRows := m.envVars.map envVarDisplayRow }

/-- `hideAllEnvVars` masks all environment variables. -/
def hideAllEnvVars (m : Model) : Model :=
  refreshEnvVarsTable { m with envVars := m.envVars.map fun ev => { ev with masked := true } }

/-- `showAllEnvVars` unmasks all environment variables. -/
def showAllEnvVars (m : Model) : Model :=
  refreshEnvVarsTable { m with envVars := m.envVars.map fun ev => { ev with masked := false } }

/-! ## Env-vars load completion -/

/-- The env-vars load completion message (loader.EnvVarsLoadedMsg). -/
structure EnvVarsLoadedMsg where
  envVars : List EnvVar
  err : Option String

/-- Insert an env var into a list sorted by name (ascending). -/
def insertByName (ev : EnvVar) : List EnvVar → List EnvVar
  | [] => [ev]
  | x :: xs => if ev.name ≤ x.name then ev :: x :: xs else x :: insertByName ev xs

/-- Sort env vars by name.  `slices.SortFunc` with `cmp.Compare` on names
sorts by name (the relative order of equal names is unspecified in Go);
insertion sort produces one such name-ordered permutation. -/
def sortEnvVarsByName (l : List EnvVar) : List EnvVar :=
  l.foldr insertByName []

/-- The names that are currently unmasked (the `unmasked` map built by
`handleEnvVarsLoaded` from the prior state). -/
def unmaskedNames (l : List EnvVar) : List String :=
  (l.filter fun ev => !ev.masked).map fun ev => ev.name

/-- Apply the preserved mask state of the prior state to freshly loaded
env vars: any variable whose name was unmasked before becomes unmasked. -/
def applyPreservedMask (prior loaded : List EnvVar) : List EnvVar :=
  loaded.map fun ev =>
    if (unmaskedNames prior).contains ev.name then { ev with masked := false } else ev

/-- `handleEnvVarsLoaded`: on error record the sticky error and stop loading;
on success sort the loaded vars by name, preserve the unmasked state of
previously unmasked names, store them and rebuild the table rows. -/
def handleEnvVarsLoaded (m : Model) (msg : EnvVarsLoadedMsg) : Model :=
  match msg.err with
  | some e => { m with err := some e, envVarsLoading := false }
  | none =>
    let sorted := sortEnvVarsByName msg.envVars
    let newVars := applyPreservedMask m.envVars sorted
    { m with
        envVars := newVars
        envVarsLoading := false
        envVarsTableRows := newVars.map envVarDisplayRow }

/-! ## Task completion and output streaming -/

/-- `handleTaskDone` processes task completion: clears the running flag and
the cancellation handle and records the terminal error. -/
def handleTaskDone (m : Model) (msgErr : Option String) : Model :=
  { m with taskRunning := false, taskErr := msgErr, cancelFunc := none }

/-- Maximum number of output lines kept in memory (rolling buffer bound). -/
def maxOutputLines : Nat := 10000

/-- Minimum practical width to prevent excessive wrapping. -/
def minWrapWidth : Nat := 20

/-- `wrapOutputLines` applies word wrapping to output lines if enabled;
`wordwrapFn` models the external `wordwrap.String` (whose result is split
on newlines for the viewport). -/
def wrapOutputLines (wordwrapFn : String → Nat → String)
    (lines : List String) (width : Nat) (wrapEnabled : Bool) : List String :=
  if !wrapEnabled then lines
  else if width < minWrapWidth then lines
  else (lines.map fun line =>
    if line = "" then [""] else (wordwrapFn line width).splitOn "\n").flatten

/-- `handleTaskOutput` increments the total-line counter, trims the rolling
buffer to the most recent `maxOutputLines - 1` lines once it has reached
`maxOutputLines`, appends the new line, and refreshes the viewport content. -/
def handleTaskOutput (wordwrapFn : String → Nat → String)
    (m : Model) (line : String) : Model :=
  let total := m.totalOutputLines + 1
  let out :=
    if m.output.length ≥ maxOutputLines then
      m.output.drop (m.output.length - (maxOutputLines - 1))
    else m.output
  let out := out ++ [line]
  { m with
      totalOutputLines := total
      output := out
      viewportLines := wrapOutputLines wordwrapFn out m.viewportWidth m.wrapOutput }

/-! ## Debounced file-change reloads -/

/-- Minimum milliseconds between file change reloads. -/
def debounceInterval : Int := 500

/-- `handleFileChanged` at current time `now` (ms): if less than the
debounce interval has elapsed since the last accepted reload, drop the
event; otherwise update the last-reload timestamp and issue a full reload. -/
def handleFileChanged (m : Model) (now : Nat) : Model × UICmd :=
  if (now : Int) - (m.lastReload : Int) < debounceInterval then (m, UICmd.noCmd)
  else ({ m with lastReload := now }, UICmd.reloadMiseData)

/-- Fold a sequence of file-changed notifications (by arrival time) into the
state, counting how many reload commands are issued. -/
def foldFileChanges (m : Model) (times : List Nat) : Model × Nat :=
  times.foldl
    (fun acc t =>
      let r := handleFileChanged acc.1 t
      (r.1, acc.2 + if r.2 = UICmd.noCmd then 0 else 1))
    (m, 0)

/-! ## Picker load-completion handlers -/

/-- The registry load completion message (loader.RegistryLoadedMsg). -/
structure RegistryLoadedMsg where
  tools : List ToolItem
  err : Option String

/-- The versions load completion message (loader.VersionsLoadedMsg). -/
structure VersionsLoadedMsg where
  tool : String
  versions : List String
  err : Option String

/-- The tool install completion message (loader.ToolInstalledMsg). -/
structure ToolInstalledMsg where
  tool : String
  version : String
  err : Option String

/-- `handleRegistryLoaded`: on error close the picker; on success fill the
tool list with the registry entries. -/
def handleRegistryLoaded (m : Model) (msg : RegistryLoadedMsg) : Model :=
  match msg.err with
  | some _ => { m with pickerState := PickerState.pickerClosed }
  | none => { m with toolListItems := msg.tools }

/-- `handleVersionsLoaded`: clear the loading flag; on error go back to tool
selection; on success fill the version list and advance to version
selection. -/
def handleVersionsLoaded (m : Model) (msg : VersionsLoadedMsg) : Model :=
  let m := { m with versionsLoading := false }
  match msg.err with
  | some _ => { m with pickerState := PickerState.pickerSelectTool }
  | none =>
    { m with
        versionListItems := msg.versions
        pickerState := PickerState.pickerSelectVersion }

/-- `handleToolInstalled`: on error close the picker with no follow-up
command; on success close the picker, clear the selected tool and issue a
tools reload. -/
def handleToolInstalled (m : Model) (msg : ToolInstalledMsg) : Model × UICmd :=
  match msg.err with
  | some _ => ({ m with pickerState := PickerState.pickerClosed }, UICmd.noCmd)
  | none =>
    ({ m with pickerState := PickerState.pickerClosed, selectedTool := "" },
      UICmd.loadMiseTools)

/-! ## Fuzzy task filter -/

/-- `filterTasks` filters tasks by fuzzy matching against name and
description.  `fuzzyFind` models the external matcher `fuzzy.Find`: given
the query and the searchable strings it returns the indices of the matches,
best first.  An empty filter returns the tasks unchanged; otherwise each
match index is looked up in the task collection (a missing index yields the
zero task, as a Go map lookup does). -/
def filterTasks (fuzzyFind : String → List String → List Nat)
    (tasks : List Task) (filter : String) : List Task :=
  if filter = "" then tasks
  else
    let sources := tasks.map fun task => task.name ++ " " ++ task.description
    let matchIdxs := fuzzyFind filter sources
    matchIdxs.map fun i => tasks.getD i default

/-! ## Command runner -/

/-- The distinct error for a no-arguments call (ErrNoCommand). -/
def errNoCommand : String := "no command provided"

/-- `execRunner.Run`: with no arguments fail with `errNoCommand` and no
output; otherwise run the first argument as the command with the rest as
its arguments (`execute` models `exec.CommandContext(...).Output()`,
returning captured output bytes or an error). -/
def execRunnerRun (execute : String → List String → Except String (List Nat))
    (args : List String) : Except String (List Nat) :=
  match args with
  | [] => Except.error errNoCommand
  | cmd :: rest => execute cmd rest

/-! ## Source priority -/

/-- Base priority for parent directories. -/
def priorityParentDirBase : Nat := 1000
/-- Priority for home directory configs. -/
def priorityHomeDir : Nat := 10000
/-- Priority for system configs (/etc/mise). -/
def prioritySystemDir : Nat := 100000
/-- Priority for unresolvable paths. -/
def priorityUnknown : Nat := 999999

/-- Component-wise list prefix test (Boolean). -/
def listIsPfx : List String → List String → Bool
  | [], _ => true
  | _ :: _, [] => false
  | a :: as, b :: bs => a == b && listIsPfx as bs

/-- `sourcePriority` of an absolute config-file path (component list),
relative to the working directory `cwd` and home directory `homeDir`:
0 in the working directory, the subdirectory depth below it, a parent-band
offset plus the ascent for ancestors, then fixed bands for home configs,
system configs and everything else. -/
def sourcePriority (cwd homeDir absPath : List String) : Nat :=
  let configDir := absPath.dropLast
  if listIsPfx cwd configDir then
    if configDir = cwd then 0
    else configDir.length - cwd.length
  else if listIsPfx configDir cwd then
    priorityParentDirBase + (cwd.length - configDir.length)
  else if listIsPfx homeDir absPath then
    priorityHomeDir
  else if listIsPfx ["etc", "mise"] absPath then
    prioritySystemDir
  else
    priorityUnknown

/-! ## Layout engine -/

/-- Minimum rows to show per table. -/
def minTableHeight : Nat := 4
/-- Header block lines (title + version + blank line). -/
def headerLines : Nat := 3
/-- Lines per section title. -/
def sectionTitleLines : Nat := 1
/-- Blank line between sections. -/
def sectionSpacerLines : Nat := 1
/-- Help text lines (help + blank line before it). -/
def helpLines : Nat := 2
/-- Number of tables (tasks, tools, env vars). -/
def numTables : Nat := 3
/-- Per-table header height (header row + border). -/
def tableHeaderHeight : Nat := 2
/-- Fixed chrome overhead: header + section titles + spacers + help. -/
def layoutOverhead : Nat :=
  headerLines + numTables * sectionTitleLines + numTables * sectionSpacerLines + helpLines

/-- `calculateTableHeights` distributes available vertical space among the
three tables: exact needs when they fit, otherwise the hard floor plus a
proportional share of the leftover, the last table absorbing the rounding
remainder. -/
def calculateTableHeights (windowHeight taskRows toolRows envVarRows : Nat) :
    Nat × Nat × Nat :=
  if windowHeight = 0 then (minTableHeight, minTableHeight, minTableHeight)
  else
    let availableHeight := windowHeight - layoutOverhead
    if availableHeight < numTables * minTableHeight then
      (minTableHeight, minTableHeight, minTableHeight)
    else
      let taskNeeds := taskRows + tableHeaderHeight
      let toolNeeds := toolRows + tableHeaderHeight
      let envVarNeeds := envVarRows + tableHeaderHeight
      let totalNeeds := taskNeeds + toolNeeds + envVarNeeds
      if totalNeeds ≤ availableHeight then (taskNeeds, toolNeeds, envVarNeeds)
      else
        let remaining := availableHeight - numTables * minTableHeight
        if remaining > 0 then
          let totalRows := taskRows + toolRows + envVarRows
          if totalRows > 0 then
            let taskExtra := remaining * taskRows / totalRows
            let toolExtra := remaining * toolRows / totalRows
            let envVarExtra := remaining - taskExtra - toolExtra
            (minTableHeight + taskExtra, minTableHeight + toolExtra,
              minTableHeight + envVarExtra)
          else
            let each := remaining / numTables
            (minTableHeight + each, minTableHeight + each,
              minTableHeight + (remaining - (numTables - 1) * each))
        else (minTableHeight, minTableHeight, minTableHeight)

/-- A concrete task used to instantiate theorems. -/
def sampleTask : Task where
  name := "build"
  description := "compile"
  aliases := []
  source := ""
  hide := false
  run := []

/-! ## Theorems -/

/-- C8: `handleTaskDone` clears the running flag and the cancellation
handle, records the message's terminal error, and leaves the output buffer,
the total-lines counter, the running-task name and every other state field
unchanged. -/
theorem C8_taskDone_frame (m : Model) (msgErr : Option String) :
    (handleTaskDone m msgErr).taskRunning = false ∧
    (handleTaskDone m msgErr).taskErr = msgErr ∧
    (handleTaskDone m msgErr).cancelFunc = none ∧
    (handleTaskDone m msgErr).output = m.output ∧
    (handleTaskDone m msgErr).totalOutputLines = m.totalOutputLines ∧
    (handleTaskDone m msgErr).runningTask = m.runningTask ∧
    handleTaskDone m msgErr =
      { m with taskRunning := false, taskErr := msgErr, cancelFunc := none } :=
  ⟨rfl, rfl, rfl, rfl, rfl, rfl, rfl⟩

/-- C9: the command runner invoked with an empty argument list returns the
distinct no-command error without attempting execution (the result does not
depend on the executor), and with a non-empty argument list it executes the
first argument as the command. -/
theorem C9_run_no_command
    (execute execute' : String → List String → Except String (List Nat))
    (cmd : String) (rest : List String) :
    execRunnerRun execute [] = Except.error errNoCommand ∧
    execRunnerRun execute [] = execRunnerRun execute' [] ∧
    execRunnerRun execute (cmd :: rest) = execute cmd rest :=
  ⟨rfl, rfl, rfl⟩

/-- Empty strings are the only strings of length zero. -/
theorem eq_empty_of_length_zero {s : String} (h : s.length = 0) : s = "" := by
  cases s with
  | mk data =>
    simp [String.length] at h
    simp [h]

/-- C10: `maskValue` maps the empty string to itself and every non-empty
string to one fixed eight-character mask, so in the rendered
environment-variable table a masked empty value is displayed as an empty
cell, indistinguishable from an unmasked empty value, and the mask is
independent of the value. -/
theorem C10_maskValue (v w n : String) (hv : v ≠ "") (hw : w ≠ "") :
    maskValue "" = "" ∧
    maskValue v = "●●●●●●●●" ∧
    (maskValue v).length = 8 ∧
    maskValue v = maskValue w ∧
    envVarDisplayRow { name := n, value := "", masked := true } = [n, ""] ∧
    envVarDisplayRow { name := n, value := "", masked := true } =
      envVarDisplayRow { name := n, value := "", masked := false } ∧
    (∀ m : Model, (refreshEnvVarsTable m).envVarsTableRows
      = m.envVars.map envVarDisplayRow) := by
  have hv' : v.length ≠ 0 := fun h => hv (eq_empty_of_length_zero h)
  have hw' : w.length ≠ 0 := fun h => hw (eq_empty_of_length_zero h)
  refine ⟨rfl, ?_, ?_, ?_, rfl, rfl, fun m => rfl⟩
  · simp [maskValue, hv']
  · simp only [maskValue, hv', if_false, if_neg hv']
    decide
  · simp [maskValue, hv', hw']

/-- C10 witness at concrete inputs. -/
theorem C10_maskValue_witness :
    maskValue "" = "" ∧
    maskValue "secret" = "●●●●●●●●" ∧
    (maskValue "secret").length = 8 ∧
    maskValue "secret" = maskValue "x" ∧
    envVarDisplayRow { name := "PATH", value := "", masked := true } = ["PATH", ""] ∧
    envVarDisplayRow { name := "PATH", value := "", masked := true } =
      envVarDisplayRow { name := "PATH", value := "", masked := false } ∧
    (∀ m : Model, (refreshEnvVarsTable m).envVarsTableRows
      = m.envVars.map envVarDisplayRow) :=
  C10_maskValue "secret" "x" "PATH" (by decide) (by decide)

/-- C6: `filterTasks` with the empty query is the identity on the task
collection, and with a non-empty query (whose match indices are in range)
every returned task is a task of the original collection. -/
theorem C6_filterTasks_empty_query (fuzzyFind : String → List String → List Nat)
    (tasks : List Task) (filter : String) (hf : filter ≠ "")
    (hvalid : ∀ i ∈ fuzzyFind filter
      (tasks.map fun task => task.name ++ " " ++ task.description),
      i < tasks.length) :
    filterTasks fuzzyFind tasks "" = tasks ∧
    ∀ t ∈ filterTasks fuzzyFind tasks filter, t ∈ tasks := by
  constructor
  · simp [filterTasks]
  · intro t ht
    rw [filterTasks, if_neg hf] at ht
    simp only [List.mem_map] at ht
    obtain ⟨i, hi, rfl⟩ := ht
    have hlt : i < tasks.length := hvalid i hi
    rw [List.getD_eq_getElem tasks default hlt]
    exact List.getElem_mem hlt

/-- C6 witness at concrete inputs. -/
theorem C6_filterTasks_empty_query_witness :
    filterTasks (fun _ _ => [0]) [sampleTask] "" = [sampleTask] ∧
    ∀ t ∈ filterTasks (fun _ _ => [0]) [sampleTask] "b", t ∈ [sampleTask] :=
  C6_filterTasks_empty_query (fun _ _ => [0]) [sampleTask] "b" (by decide)
    (by intro i hi; simp at hi; simp [hi])

/-- C1: a file-changed notification arriving less than 500 ms after the
last accepted reload is dropped (state unchanged, no command); one arriving
500 ms or later updates the last-reload timestamp and issues a full reload;
hence, once a first notification is accepted, a second one less than 500 ms
later yields exactly one reload, and a second one at least 500 ms later
yields two. -/
theorem C1_debounce (m : Model) (now t1 t2 : Nat)
    (haccept : debounceInterval ≤ (t1 : Int) - (m.lastReload : Int)) :
    (((now : Int) - (m.lastReload : Int) < debounceInterval →
        handleFileChanged m now = (m, UICmd.noCmd)) ∧
      (debounceInterval ≤ (now : Int) - (m.lastReload : Int) →
        handleFileChanged m now =
          ({ m with lastReload := now }, UICmd.reloadMiseData))) ∧
    ((t2 : Int) - (t1 : Int) < debounceInterval →
      (foldFileChanges m [t1, t2]).2 = 1) ∧
    (debounceInterval ≤ (t2 : Int) - (t1 : Int) →
      (foldFileChanges m [t1, t2]).2 = 2) := by
  have h1 : ¬ ((t1 : Int) - (m.lastReload : Int) < debounceInterval) :=
    not_lt.mpr haccept
  refine ⟨⟨?_, ?_⟩, ?_, ?_⟩
  · intro h
    rw [handleFileChanged, if_pos h]
  · intro h
    rw [handleFileChanged, if_neg (not_lt.mpr h)]
  · intro h
    simp only [foldFileChanges, List.foldl, handleFileChanged, h1, if_false,
      if_neg h1]
    simp [h]
  · intro h
    simp only [foldFileChanges, List.foldl, handleFileChanged, h1, if_false,
      if_neg h1]
    simp [not_lt.mpr h]

/-- C1 witness at concrete inputs. -/
theorem C1_debounce_witness :
    ((((700 : Nat) : Int) - ((sampleModel.lastReload : Nat) : Int) <
        debounceInterval →
        handleFileChanged sampleModel 700 = (sampleModel, UICmd.noCmd)) ∧
      (debounceInterval ≤ ((700 : Nat) : Int) - ((sampleModel.lastReload : Nat) : Int) →
        handleFileChanged sampleModel 700 =
          ({ sampleModel with lastReload := 700 }, UICmd.reloadMiseData))) ∧
    (((900 : Nat) : Int) - ((600 : Nat) : Int) < debounceInterval →
      (foldFileChanges sampleModel [600, 900]).2 = 1) ∧
    (debounceInterval ≤ ((900 : Nat) : Int) - ((600 : Nat) : Int) →
      (foldFileChanges sampleModel [600, 900]).2 = 2) :=
  C1_debounce sampleModel 700 600 900 (by decide)

/-! ### Mask preservation across reloads (C2) -/

/-- `List.contains` agrees with membership for strings. -/
theorem contains_iff_mem {a : String} {l : List String} :
    l.contains a = true ↔ a ∈ l :=
  List.elem_iff

/-- Membership in `insertByName`. -/
theorem mem_insertByName {x ev : EnvVar} {l : List EnvVar} :
    x ∈ insertByName ev l ↔ x = ev ∨ x ∈ l := by
  induction l with
  | nil => simp [insertByName]
  | cons a as ih =>
    rw [insertByName]
    by_cases h : ev.name ≤ a.name
    · simp [h]
    · simp only [if_neg h, List.mem_cons, ih]
      tauto

/-- Sorting env vars by name preserves membership. -/
theorem mem_sortEnvVarsByName {x : EnvVar} {l : List EnvVar} :
    x ∈ sortEnvVarsByName l ↔ x ∈ l := by
  induction l with
  | nil => simp [sortEnvVarsByName]
  | cons a as ih =>
    have hrw : sortEnvVarsByName (a :: as) = insertByName a (sortEnvVarsByName as) := rfl
    rw [hrw, mem_insertByName, ih, List.mem_cons]

/-- `unmaskedNames` lists exactly the names of unmasked entries. -/
theorem mem_unmaskedNames {name : String} {l : List EnvVar} :
    name ∈ unmaskedNames l ↔ ∃ ev ∈ l, ev.name = name ∧ ev.masked = false := by
  simp only [unmaskedNames, List.mem_map, List.mem_filter, Bool.not_eq_true']
  constructor
  · rintro ⟨ev, ⟨hev, hm⟩, hn⟩
    exact ⟨ev, hev, hn, hm⟩
  · rintro ⟨ev, hev, hn, hm⟩
    exact ⟨ev, ⟨hev, hm⟩, hn⟩

/-- Every entry of `applyPreservedMask` whose name was unmasked in the
prior state is unmasked. -/
theorem applyPreservedMask_all {prior loaded : List EnvVar} {name : String}
    (h : name ∈ unmaskedNames prior) :
    ∀ ev ∈ applyPreservedMask prior loaded, ev.name = name → ev.masked = false := by
  intro ev hev hname
  simp only [applyPreservedMask, List.mem_map] at hev
  obtain ⟨ev0, hev0, heq⟩ := hev
  by_cases hc : (unmaskedNames prior).contains ev0.name = true
  · rw [if_pos hc] at heq
    rw [← heq]
  · rw [if_neg hc] at heq
    exfalso
    apply hc
    rw [contains_iff_mem, heq, hname]
    exact h

/-- A name that was unmasked before and occurs among the loaded entries has
an unmasked entry in the result of `applyPreservedMask`. -/
theorem applyPreservedMask_exists {prior loaded : List EnvVar} {name : String}
    (h : name ∈ unmaskedNames prior)
    (hp : name ∈ loaded.map fun ev => ev.name) :
    ∃ ev ∈ applyPreservedMask prior loaded, ev.name = name ∧ ev.masked = false := by
  simp only [List.mem_map] at hp
  obtain ⟨ev0, hev0, hname⟩ := hp
  have hc : (unmaskedNames prior).contains ev0.name = true := by
    rw [contains_iff_mem, hname]
    exact h
  refine ⟨{ ev0 with masked := false }, ?_, hname, rfl⟩
  simp only [applyPreservedMask, List.mem_map]
  exact ⟨ev0, hev0, by rw [if_pos hc]⟩

/-- One successful env-vars reload preserves an unmasked name that is
present among the loaded variables. -/
theorem envUnmasked_step {m : Model} {loaded : List EnvVar} {name : String}
    (h : ∃ ev ∈ m.envVars, ev.name = name ∧ ev.masked = false)
    (hp : name ∈ loaded.map fun ev => ev.name) :
    (∀ ev ∈ (handleEnvVarsLoaded m ⟨loaded, none⟩).envVars,
        ev.name = name → ev.masked = false) ∧
    (∃ ev ∈ (handleEnvVarsLoaded m ⟨loaded, none⟩).envVars,
        ev.name = name ∧ ev.masked = false) := by
  have hmem : name ∈ unmaskedNames m.envVars := mem_unmaskedNames.mpr h
  have hp' : name ∈ (sortEnvVarsByName loaded).map fun ev => ev.name := by
    simp only [List.mem_map] at hp ⊢
    obtain ⟨ev0, h0, hname⟩ := hp
    exact ⟨ev0, mem_sortEnvVarsByName.mpr h0, hname⟩
  exact ⟨applyPreservedMask_all hmem, applyPreservedMask_exists hmem hp'⟩

/-- Any number of successful reloads preserves an unmasked name that is
present in each load. -/
theorem envUnmasked_fold {name : String} (loads : List (List EnvVar)) :
    ∀ m : Model,
      (∃ ev ∈ m.envVars, ev.name = name ∧ ev.masked = false) →
      (∀ l ∈ loads, name ∈ l.map fun ev => ev.name) →
      ∃ ev ∈ (loads.foldl (fun acc l => handleEnvVarsLoaded acc ⟨l, none⟩) m).envVars,
        ev.name = name ∧ ev.masked = false := by
  induction loads with
  | nil =>
    intro m h _
    exact h
  | cons l ls ih =>
    intro m h hp
    have step := envUnmasked_step h (hp l (List.mem_cons_self l ls))
    exact ih _ step.2 fun l' hl' => hp l' (List.mem_cons_of_mem l hl')

/-- C2: after a successful env-vars reload, every name that was unmasked in
the prior state and is present in the newly loaded set is still unmasked
(every entry carrying the name is unmasked and one exists), this holds
across any number of successive reloads in which the name stays present,
and `hideAllEnvVars` re-masks every variable. -/
theorem C2_mask_preservation (m : Model) (msg : EnvVarsLoadedMsg) (name : String)
    (loads : List (List EnvVar))
    (hok : msg.err = none)
    (hunmasked : ∃ ev ∈ m.envVars, ev.name = name ∧ ev.masked = false)
    (hpresent : name ∈ msg.envVars.map fun ev => ev.name)
    (hloads : ∀ l ∈ loads, name ∈ l.map fun ev => ev.name) :
    (∀ ev ∈ (handleEnvVarsLoaded m msg).envVars,
        ev.name = name → ev.masked = false) ∧
    (∃ ev ∈ (handleEnvVarsLoaded m msg).envVars,
        ev.name = name ∧ ev.masked = false) ∧
    (∃ ev ∈ (loads.foldl (fun acc l => handleEnvVarsLoaded acc ⟨l, none⟩) m).envVars,
        ev.name = name ∧ ev.masked = false) ∧
    (∀ ev ∈ (hideAllEnvVars m).envVars, ev.masked = true) := by
  obtain ⟨vars, err⟩ := msg
  cases err with
  | some e => cases hok
  | none =>
    have step := @envUnmasked_step m vars name hunmasked hpresent
    refine ⟨step.1, step.2, envUnmasked_fold loads m hunmasked hloads, ?_⟩
    intro ev hev
    simp only [hideAllEnvVars, refreshEnvVarsTable, List.mem_map] at hev
    obtain ⟨ev0, _, heq⟩ := hev
    rw [← heq]

/-- A sample environment variable, unmasked by the user. -/
def evPathOld : EnvVar where
  name := "PATH"
  value := "/usr/bin"
  masked := false

/-- The same name freshly loaded with a different value, masked by the
loader. -/
def evPathNew : EnvVar where
  name := "PATH"
  value := "/opt/bin"
  masked := true

/-- Another freshly loaded variable. -/
def evHome : EnvVar where
  name := "HOME"
  value := "/root"
  masked := true

/-- C2 witness at concrete inputs. -/
theorem C2_mask_preservation_witness :
    (∀ ev ∈ (handleEnvVarsLoaded { sampleModel with envVars := [evPathOld] }
        ⟨[evHome, evPathNew], none⟩).envVars,
        ev.name = "PATH" → ev.masked = false) ∧
    (∃ ev ∈ (handleEnvVarsLoaded { sampleModel with envVars := [evPathOld] }
        ⟨[evHome, evPathNew], none⟩).envVars,
        ev.name = "PATH" ∧ ev.masked = false) ∧
    (∃ ev ∈ ([[evPathNew]].foldl (fun acc l => handleEnvVarsLoaded acc ⟨l, none⟩)
        { sampleModel with envVars := [evPathOld] }).envVars,
        ev.name = "PATH" ∧ ev.masked = false) ∧
    (∀ ev ∈ (hideAllEnvVars { sampleModel with envVars := [evPathOld] }).envVars,
        ev.masked = true) :=
  C2_mask_preservation { sampleModel with envVars := [evPathOld] }
    ⟨[evHome, evPathNew], none⟩ "PATH" [[evPathNew]] rfl
    (by exact ⟨evPathOld, by decide, rfl, rfl⟩)
    (by decide) (by decide)

/-! ### Rolling output buffer (C4) -/

/-- Folding output lines from an empty buffer keeps exactly the most
recent `maxOutputLines` lines and counts every line. -/
theorem outputFold (wordwrapFn : String → Nat → String) (lines : List String) :
    ∀ m0 : Model, m0.output = [] → m0.totalOutputLines = 0 →
      (lines.foldl (handleTaskOutput wordwrapFn) m0).output
          = lines.drop (lines.length - maxOutputLines) ∧
      (lines.foldl (handleTaskOutput wordwrapFn) m0).totalOutputLines
          = lines.length := by
  induction lines using List.reverseRecOn with
  | nil =>
    intro m0 h1 h2
    simpa using ⟨h1, h2⟩
  | append_singleton l a ih =>
    intro m0 h1 h2
    obtain ⟨ihOut, ihTot⟩ := ih m0 h1 h2
    rw [List.foldl_append, List.foldl_cons, List.foldl_nil]
    have hlen : (l.foldl (handleTaskOutput wordwrapFn) m0).output.length
        = l.length - (l.length - maxOutputLines) := by
      rw [ihOut, List.length_drop]
    by_cases hn : l.length < maxOutputLines
    · have hz : l.length - maxOutputLines = 0 := Nat.sub_eq_zero_of_le (le_of_lt hn)
      have hcond : ¬ ((l.foldl (handleTaskOutput wordwrapFn) m0).output.length
          ≥ maxOutputLines) := by
        rw [hlen]
        omega
      have hz' : (l ++ [a]).length - maxOutputLines = 0 := by
        rw [List.length_append]
        simp only [List.length_singleton]
        omega
      constructor
      · simp only [handleTaskOutput, if_neg hcond]
        rw [hz', List.drop_zero, ihOut, hz, List.drop_zero]
      · simp only [handleTaskOutput]
        rw [ihTot, List.length_append, List.length_singleton]
    · have hge : maxOutputLines ≤ l.length := le_of_not_lt hn
      have hlenM : (l.foldl (handleTaskOutput wordwrapFn) m0).output.length
          = maxOutputLines := by
        rw [hlen]
        omega
      have hcond : (l.foldl (handleTaskOutput wordwrapFn) m0).output.length
          ≥ maxOutputLines := by
        rw [hlenM]
      constructor
      · simp only [handleTaskOutput, if_pos hcond]
        rw [ihOut]
        have hM : maxOutputLines = 10000 := rfl
        have hidx1 : (List.drop (l.length - maxOutputLines) l).length
            - (maxOutputLines - 1) = 1 := by
          rw [List.length_drop]
          omega
        rw [hidx1, List.drop_drop]
        have hle2 : (l ++ [a]).length - maxOutputLines ≤ l.length := by
          rw [List.length_append, List.length_singleton]
          omega
        rw [List.drop_append_of_le_length hle2]
        have hidx2 : (l ++ [a]).length - maxOutputLines
            = l.length - maxOutputLines + 1 := by
          rw [List.length_append, List.length_singleton]
          omega
        rw [hidx2]
      · simp only [handleTaskOutput]
        rw [ihTot, List.length_append, List.length_singleton]

/-- C4: starting from the empty output buffer, after processing N
output-line messages the buffer holds exactly the most recent
min(N, 10000) lines in emission order while the total-lines counter equals
N, and the bound `output.length ≤ maxOutputLines` is an invariant of every
`handleTaskOutput` step. -/
theorem C4_output_buffer (wordwrapFn : String → Nat → String) (m0 : Model)
    (lines : List String) (h1 : m0.output = []) (h2 : m0.totalOutputLines = 0) :
    (lines.foldl (handleTaskOutput wordwrapFn) m0).output
        = lines.drop (lines.length - maxOutputLines) ∧
    (lines.foldl (handleTaskOutput wordwrapFn) m0).output.length
        = min lines.length maxOutputLines ∧
    (lines.foldl (handleTaskOutput wordwrapFn) m0).totalOutputLines
        = lines.length ∧
    (lines.foldl (handleTaskOutput wordwrapFn) m0).output.length
        ≤ maxOutputLines ∧
    ∀ (m : Model) (line : String), m.output.length ≤ maxOutputLines →
      (handleTaskOutput wordwrapFn m line).output.length ≤ maxOutputLines := by
  obtain ⟨hout, htot⟩ := outputFold wordwrapFn lines m0 h1 h2
  have hlen : (lines.foldl (handleTaskOutput wordwrapFn) m0).output.length
      = min lines.length maxOutputLines := by
    rw [hout, List.length_drop]
    omega
  refine ⟨hout, hlen, htot, by rw [hlen]; omega, ?_⟩
  intro m line h
  by_cases hc : m.output.length ≥ maxOutputLines
  · simp only [handleTaskOutput, if_pos hc, List.length_append,
      List.length_drop, List.length_singleton]
    have : (0 : Nat) < maxOutputLines := by simp [maxOutputLines]
    omega
  · simp only [handleTaskOutput, if_neg hc, List.length_append,
      List.length_singleton]
    omega

/-- C4 witness at concrete inputs. -/
theorem C4_output_buffer_witness :
    (["a", "b"].foldl (handleTaskOutput fun s _ => s) sampleModel).output
        = ["a", "b"].drop (["a", "b"].length - maxOutputLines) ∧
    (["a", "b"].foldl (handleTaskOutput fun s _ => s) sampleModel).output.length
        = min (["a", "b"] : List String).length maxOutputLines ∧
    (["a", "b"].foldl (handleTaskOutput fun s _ => s) sampleModel).totalOutputLines
        = (["a", "b"] : List String).length ∧
    (["a", "b"].foldl (handleTaskOutput fun s _ => s) sampleModel).output.length
        ≤ maxOutputLines ∧
    ∀ (m : Model) (line : String), m.output.length ≤ maxOutputLines →
      (handleTaskOutput (fun s _ => s) m line).output.length ≤ maxOutputLines :=
  C4_output_buffer (fun s _ => s) sampleModel ["a", "b"] rfl rfl

/-! ### Layout engine under oversubscription (C3) -/

/-- C3 counterexample: at window height 25 with row counts (6, 5, 5),
demand (21) exceeds the available space (14), total rows are positive, yet
the tasks section — with strictly more rows than the env-vars section —
receives height 4 while env-vars receives height 6: the heights are not
monotone in row count, because the last section absorbs the entire rounding
remainder. -/
theorem C3_counterexample :
    25 - layoutOverhead <
      6 + tableHeaderHeight + (5 + tableHeaderHeight) + (5 + tableHeaderHeight) ∧
    0 < 6 + 5 + 5 ∧
    calculateTableHeights 25 6 5 5 = (4, 4, 6) ∧
    ¬ ((calculateTableHeights 25 6 5 5).2.2 ≤ (calculateTableHeights 25 6 5 5).1) := by
  refine ⟨by decide, by decide, by decide, by decide⟩

/-- Sums of floored shares are bounded by the floored share of the sum. -/
theorem div_add_div_add_div_le {a b c n : Nat} (hn : 0 < n) :
    a / n + b / n + c / n ≤ (a + b + c) / n := by
  rw [Nat.le_div_iff_mul_le hn, Nat.add_mul, Nat.add_mul]
  have ha := Nat.div_mul_le_self a n
  have hb := Nat.div_mul_le_self b n
  have hc := Nat.div_mul_le_self c n
  omega

/-- C3 amended: when demand exceeds availability every returned height is
at least the floor, the first two sections are monotone in row count, and
the last section receives at least as much as any section with at most as
many rows; but a non-last section with at least as many rows as the last
may still receive strictly less (the last absorbs the remainder). -/
theorem C3_amended (windowHeight taskRows toolRows envVarRows : Nat)
    (hover : windowHeight - layoutOverhead <
      taskRows + tableHeaderHeight + (toolRows + tableHeaderHeight)
        + (envVarRows + tableHeaderHeight)) :
    minTableHeight ≤ (calculateTableHeights windowHeight taskRows toolRows envVarRows).1 ∧
    minTableHeight ≤ (calculateTableHeights windowHeight taskRows toolRows envVarRows).2.1 ∧
    minTableHeight ≤ (calculateTableHeights windowHeight taskRows toolRows envVarRows).2.2 ∧
    (toolRows ≤ taskRows →
      (calculateTableHeights windowHeight taskRows toolRows envVarRows).2.1
        ≤ (calculateTableHeights windowHeight taskRows toolRows envVarRows).1) ∧
    (taskRows ≤ toolRows →
      (calculateTableHeights windowHeight taskRows toolRows envVarRows).1
        ≤ (calculateTableHeights windowHeight taskRows toolRows envVarRows).2.1) ∧
    (taskRows ≤ envVarRows →
      (calculateTableHeights windowHeight taskRows toolRows envVarRows).1
        ≤ (calculateTableHeights windowHeight taskRows toolRows envVarRows).2.2) ∧
    (toolRows ≤ envVarRows →
      (calculateTableHeights windowHeight taskRows toolRows envVarRows).2.1
        ≤ (calculateTableHeights windowHeight taskRows toolRows envVarRows).2.2) := by
  rw [calculateTableHeights]
  by_cases h0 : windowHeight = 0
  · simp only [h0, if_pos rfl]
    refine ⟨le_refl _, le_refl _, le_refl _, ?_, ?_, ?_, ?_⟩ <;> intro _ <;> exact le_refl _
  · rw [if_neg h0]
    by_cases hsmall : windowHeight - layoutOverhead < numTables * minTableHeight
    · rw [if_pos hsmall]
      refine ⟨le_refl _, le_refl _, le_refl _, ?_, ?_, ?_, ?_⟩ <;> intro _ <;> exact le_refl _
    · rw [if_neg hsmall]
      have hfit : ¬ (taskRows + tableHeaderHeight + (toolRows + tableHeaderHeight)
          + (envVarRows + tableHeaderHeight) ≤ windowHeight - layoutOverhead) := by
        omega
      rw [if_neg hfit]
      have hrem : windowHeight - layoutOverhead - numTables * minTableHeight
          ≥ 0 := Nat.zero_le _
      by_cases hpos : windowHeight - layoutOverhead - numTables * minTableHeight > 0
      · rw [if_pos hpos]
        by_cases hrows : taskRows + toolRows + envVarRows > 0
        · rw [if_pos hrows]
          simp only
          set r := windowHeight - layoutOverhead - numTables * minTableHeight with hr
          set tot := taskRows + toolRows + envVarRows with htot
          have hsum : r * taskRows / tot + r * toolRows / tot + r * envVarRows / tot
              ≤ r := by
            have h1 : r * taskRows / tot + r * toolRows / tot + r * envVarRows / tot
                ≤ (r * taskRows + r * toolRows + r * envVarRows) / tot :=
              div_add_div_add_div_le hrows
            have h2 : r * taskRows + r * toolRows + r * envVarRows = r * tot := by
              rw [htot]
              ring
            rw [h2, Nat.mul_div_cancel r hrows] at h1
            exact h1
          refine ⟨Nat.le_add_right _ _, Nat.le_add_right _ _, Nat.le_add_right _ _,
            ?_, ?_, ?_, ?_⟩
          · intro h
            have := @Nat.div_le_div_right _ _ tot (Nat.mul_le_mul_left r h)
            omega
          · intro h
            have := @Nat.div_le_div_right _ _ tot (Nat.mul_le_mul_left r h)
            omega
          · intro h
            have h1 := @Nat.div_le_div_right _ _ tot (Nat.mul_le_mul_left r h)
            omega
          · intro h
            have h1 := @Nat.div_le_div_right _ _ tot (Nat.mul_le_mul_left r h)
            omega
        · rw [if_neg hrows]
          simp only [show numTables = 3 from rfl, show minTableHeight = 4 from rfl]
          refine ⟨Nat.le_add_right _ _, Nat.le_add_right _ _, Nat.le_add_right _ _,
            ?_, ?_, ?_, ?_⟩ <;> intro _ <;> omega
      · rw [if_neg hpos]
        refine ⟨le_refl _, le_refl _, le_refl _, ?_, ?_, ?_, ?_⟩ <;> intro _ <;>
          exact le_refl _

/-- C3 amended witness at concrete inputs. -/
theorem C3_amended_witness :
    minTableHeight ≤ (calculateTableHeights 25 6 5 5).1 ∧
    minTableHeight ≤ (calculateTableHeights 25 6 5 5).2.1 ∧
    minTableHeight ≤ (calculateTableHeights 25 6 5 5).2.2 ∧
    (5 ≤ 6 → (calculateTableHeights 25 6 5 5).2.1 ≤ (calculateTableHeights 25 6 5 5).1) ∧
    (6 ≤ 5 → (calculateTableHeights 25 6 5 5).1 ≤ (calculateTableHeights 25 6 5 5).2.1) ∧
    (6 ≤ 5 → (calculateTableHeights 25 6 5 5).1 ≤ (calculateTableHeights 25 6 5 5).2.2) ∧
    (5 ≤ 5 → (calculateTableHeights 25 6 5 5).2.1 ≤ (calculateTableHeights 25 6 5 5).2.2) :=
  C3_amended 25 6 5 5 (by decide)

/-! ### Source-priority ordering (C5) -/

/-- `listIsPfx` is reflexive. -/
theorem listIsPfx_refl (l : List String) : listIsPfx l l = true := by
  induction l with
  | nil => rfl
  | cons a as ih => simp [listIsPfx, ih]

/-- A list prefix is no longer than the list. -/
theorem listIsPfx_length {a b : List String} (h : listIsPfx a b = true) :
    a.length ≤ b.length := by
  induction a generalizing b with
  | nil => simp
  | cons x xs ih =>
    cases b with
    | nil => simp [listIsPfx] at h
    | cons y ys =>
      simp only [listIsPfx, Bool.and_eq_true] at h
      simpa using ih h.2

/-- A prefix of equal length is the list itself. -/
theorem listIsPfx_eq_of_length {a b : List String} (h : listIsPfx a b = true)
    (hlen : b.length ≤ a.length) : a = b := by
  induction a generalizing b with
  | nil =>
    cases b with
    | nil => rfl
    | cons y ys => simp at hlen
  | cons x xs ih =>
    cases b with
    | nil => simp [listIsPfx] at h
    | cons y ys =>
      simp only [listIsPfx, Bool.and_eq_true, beq_iff_eq] at h
      simp only [List.length_cons, Nat.add_le_add_iff_right] at hlen
      rw [h.1, ih h.2 hlen]

/-- C5 counterexample: with working directory /home/u/proj and home
directory /home/u, the home-directory config /home/u/h.toml is caught by
the parent-directory band (priority 1001) because its directory is an
ancestor of the working directory, so the parent-directory config /a.toml
(priority 1003) does not sort before it, contradicting the claimed strict
band chain. -/
theorem C5_counterexample :
    listIsPfx ["home", "u"] ["home", "u", "h.toml"] = true ∧
    listIsPfx (["home", "u", "h.toml"] : List String).dropLast
      ["home", "u", "proj"] = true ∧
    listIsPfx (["a.toml"] : List String).dropLast ["home", "u", "proj"] = true ∧
    sourcePriority ["home", "u", "proj"] ["home", "u"] ["home", "u", "h.toml"]
      = 1001 ∧
    sourcePriority ["home", "u", "proj"] ["home", "u"] ["a.toml"] = 1003 ∧
    ¬ (sourcePriority ["home", "u", "proj"] ["home", "u"] ["a.toml"]
        < sourcePriority ["home", "u", "proj"] ["home", "u"] ["home", "u", "h.toml"]) := by
  decide

/-- C5 amended: the bands are strictly ordered — working directory, then
subdirectories, then parent directories, then home, then system, then
unresolvable — provided home and system configs are not themselves inside
the working-directory tree relation (a home config whose directory is an
ancestor of the working directory falls into the parent band instead), the
subdirectory depth is at most 1000 and the parent ascent at most 8999 (the
band capacities). -/
theorem C5_amended (cwd homeDir pCwd pSub pPar pHome pSys pUnk : List String)
    (hCwd : pCwd.dropLast = cwd)
    (hSub1 : listIsPfx cwd pSub.dropLast = true)
    (hSub2 : pSub.dropLast ≠ cwd)
    (hSubDepth : pSub.dropLast.length - cwd.length ≤ 1000)
    (hPar1 : listIsPfx cwd pPar.dropLast = false)
    (hPar2 : listIsPfx pPar.dropLast cwd = true)
    (hParDepth : cwd.length - pPar.dropLast.length ≤ 8999)
    (hHome1 : listIsPfx cwd pHome.dropLast = false)
    (hHome2 : listIsPfx pHome.dropLast cwd = false)
    (hHome3 : listIsPfx homeDir pHome = true)
    (hSys1 : listIsPfx cwd pSys.dropLast = false)
    (hSys2 : listIsPfx pSys.dropLast cwd = false)
    (hSys3 : listIsPfx homeDir pSys = false)
    (hSys4 : listIsPfx ["etc", "mise"] pSys = true)
    (hUnk1 : listIsPfx cwd pUnk.dropLast = false)
    (hUnk2 : listIsPfx pUnk.dropLast cwd = false)
    (hUnk3 : listIsPfx homeDir pUnk = false)
    (hUnk4 : listIsPfx ["etc", "mise"] pUnk = false) :
    sourcePriority cwd homeDir pCwd = 0 ∧
    sourcePriority cwd homeDir pCwd < sourcePriority cwd homeDir pSub ∧
    sourcePriority cwd homeDir pSub < sourcePriority cwd homeDir pPar ∧
    sourcePriority cwd homeDir pPar < sourcePriority cwd homeDir pHome ∧
    sourcePriority cwd homeDir pHome < sourcePriority cwd homeDir pSys ∧
    sourcePriority cwd homeDir pSys < sourcePriority cwd homeDir pUnk := by
  have hvCwd : sourcePriority cwd homeDir pCwd = 0 := by
    simp [sourcePriority, hCwd, listIsPfx_refl]
  have hvSub : sourcePriority cwd homeDir pSub
      = pSub.dropLast.length - cwd.length := by
    simp [sourcePriority, hSub1, hSub2]
  have hvPar : sourcePriority cwd homeDir pPar
      = priorityParentDirBase + (cwd.length - pPar.dropLast.length) := by
    simp [sourcePriority, hPar1, hPar2]
  have hvHome : sourcePriority cwd homeDir pHome = priorityHomeDir := by
    simp [sourcePriority, hHome1, hHome2, hHome3]
  have hvSys : sourcePriority cwd homeDir pSys = prioritySystemDir := by
    simp [sourcePriority, hSys1, hSys2, hSys3, hSys4]
  have hvUnk : sourcePriority cwd homeDir pUnk = priorityUnknown := by
    simp [sourcePriority, hUnk1, hUnk2, hUnk3, hUnk4]
  have hSubLen : cwd.length < pSub.dropLast.length := by
    have hle := listIsPfx_length hSub1
    rcases Nat.lt_or_ge cwd.length pSub.dropLast.length with h | h
    · exact h
    · exact absurd (listIsPfx_eq_of_length hSub1 h).symm hSub2
  have hParLen : pPar.dropLast.length < cwd.length := by
    have hle := listIsPfx_length hPar2
    rcases Nat.lt_or_ge pPar.dropLast.length cwd.length with h | h
    · exact h
    · have heq := listIsPfx_eq_of_length hPar2 h
      rw [← heq] at hPar1
      rw [listIsPfx_refl] at hPar1
      cases hPar1
  rw [hvCwd, hvSub, hvPar, hvHome, hvSys, hvUnk]
  rw [show priorityParentDirBase = 1000 from rfl,
    show priorityHomeDir = 10000 from rfl,
    show prioritySystemDir = 100000 from rfl,
    show priorityUnknown = 999999 from rfl]
  refine ⟨rfl, ?_, ?_, ?_, ?_, ?_⟩ <;> omega

/-- C5 amended witness at concrete inputs. -/
theorem C5_amended_witness :
    sourcePriority ["home", "u", "proj"] ["home", "u"]
      ["home", "u", "proj", "mise.toml"] = 0 ∧
    sourcePriority ["home", "u", "proj"] ["home", "u"]
        ["home", "u", "proj", "mise.toml"]
      < sourcePriority ["home", "u", "proj"] ["home", "u"]
        ["home", "u", "proj", "sub", "mise.toml"] ∧
    sourcePriority ["home", "u", "proj"] ["home", "u"]
        ["home", "u", "proj", "sub", "mise.toml"]
      < sourcePriority ["home", "u", "proj"] ["home", "u"]
        ["home", "mise.toml"] ∧
    sourcePriority ["home", "u", "proj"] ["home", "u"]
        ["home", "mise.toml"]
      < sourcePriority ["home", "u", "proj"] ["home", "u"]
        ["home", "u", "cfg", "config.toml"] ∧
    sourcePriority ["home", "u", "proj"] ["home", "u"]
        ["home", "u", "cfg", "config.toml"]
      < sourcePriority ["home", "u", "proj"] ["home", "u"]
        ["etc", "mise", "config.toml"] ∧
    sourcePriority ["home", "u", "proj"] ["home", "u"]
        ["etc", "mise", "config.toml"]
      < sourcePriority ["home", "u", "proj"] ["home", "u"]
        ["opt", "tool.toml"] :=
  C5_amended ["home", "u", "proj"] ["home", "u"]
    ["home", "u", "proj", "mise.toml"]
    ["home", "u", "proj", "sub", "mise.toml"]
    ["home", "mise.toml"]
    ["home", "u", "cfg", "config.toml"]
    ["etc", "mise", "config.toml"]
    ["opt", "tool.toml"]
    (by decide) (by decide) (by decide) (by decide) (by decide) (by decide)
    (by decide) (by decide) (by decide) (by decide) (by decide) (by decide)
    (by decide) (by decide) (by decide) (by decide) (by decide) (by decide)

/-! ### Picker error handling (C7) -/

/-- C7 counterexample: a registry-load error and an install error both set
the picker state to `pickerClosed` — terminating the whole picker workflow
— rather than reverting exactly one step to a resumable open state. -/
theorem C7_counterexample :
    (handleRegistryLoaded
        { sampleModel with pickerState := PickerState.pickerSelectTool }
        { tools := [], err := some "registry failed" }).pickerState
      = PickerState.pickerClosed ∧
    (handleToolInstalled
        { sampleModel with pickerState := PickerState.pickerInstalling }
        { tool := "go", version := "1.22", err := some "install failed" }).1.pickerState
      = PickerState.pickerClosed ∧
    PickerState.pickerClosed ≠ PickerState.pickerSelectConfig ∧
    PickerState.pickerClosed ≠ PickerState.pickerSelectTool ∧
    PickerState.pickerClosed ≠ PickerState.pickerInstalling :=
  ⟨rfl, rfl, by decide, by decide, by decide⟩

/-- C7 amended: a version-load error reverts the picker exactly one step —
from LoadingVersions back to SelectTool with the loading flag cleared,
leaving the workflow resumable — while a registry-load error and an install
error close the picker entirely (state `pickerClosed`, no follow-up
command on install error). -/
theorem C7_picker_errors (m1 m2 m3 : Model) (msgR : RegistryLoadedMsg)
    (msgV : VersionsLoadedMsg) (msgI : ToolInstalledMsg)
    (eV eR eI : String)
    (hV : msgV.err = some eV) (hR : msgR.err = some eR) (hI : msgI.err = some eI) :
    (handleVersionsLoaded m1 msgV).pickerState = PickerState.pickerSelectTool ∧
    (handleVersionsLoaded m1 msgV).versionsLoading = false ∧
    (handleRegistryLoaded m2 msgR).pickerState = PickerState.pickerClosed ∧
    (handleToolInstalled m3 msgI).1.pickerState = PickerState.pickerClosed ∧
    (handleToolInstalled m3 msgI).2 = UICmd.noCmd := by
  obtain ⟨vt, vv, verr⟩ := msgV
  obtain ⟨rt, rerr⟩ := msgR
  obtain ⟨it, iv, ierr⟩ := msgI
  simp only at hV hR hI
  subst hV
  subst hR
  subst hI
  exact ⟨rfl, rfl, rfl, rfl, rfl⟩

/-- C7 amended witness at concrete inputs. -/
theorem C7_picker_errors_witness :
    (handleVersionsLoaded
        { sampleModel with pickerState := PickerState.pickerLoadingVersions }
        { tool := "go", versions := [], err := some "versions failed" }).pickerState
      = PickerState.pickerSelectTool ∧
    (handleVersionsLoaded
        { sampleModel with pickerState := PickerState.pickerLoadingVersions }
        { tool := "go", versions := [], err := some "versions failed" }).versionsLoading
      = false ∧
    (handleRegistryLoaded
        { sampleModel with pickerState := PickerState.pickerSelectTool }
        { tools := [], err := some "registry failed" }).pickerState
      = PickerState.pickerClosed ∧
    (handleToolInstalled
        { sampleModel with pickerState := PickerState.pickerInstalling }
        { tool := "go", version := "1.22", err := some "install failed" }).1.pickerState
      = PickerState.pickerClosed ∧
    (handleToolInstalled
        { sampleModel with pickerState := PickerState.pickerInstalling }
        { tool := "go", version := "1.22", err := some "install failed" }).2
      = UICmd.noCmd :=
  C7_picker_errors
    { sampleModel with pickerState := PickerState.pickerLoadingVersions }
    { sampleModel with pickerState := PickerState.pickerSelectTool }
    { sampleModel with pickerState := PickerState.pickerInstalling }
    { tools := [], err := some "registry failed" }
    { tool := "go", versions := [], err := some "versions failed" }
    { tool := "go", version := "1.22", err := some "install failed" }
    "versions failed" "registry failed" "install failed" rfl rfl rfl

end Prep
